import Mathlib

/-!
Verification of scripts/roundRobin.js: a round-robin triage assignment script.
The JavaScript source is shallowly embedded: pure fragments become Lean
functions; the external Linear API is modelled by an oracle of Bool-valued
success functions; control flow (try/catch, early return, process.exit) is
made explicit through sum types and event traces.
-/

namespace RoundRobin

/-- An actor record as stored in the userMap: built from a Linear user as
the object literal with fields id and name (roundRobin.js line 23). -/
structure Actor where
  id : String
  name : String
deriving DecidableEq, Repr

/-- A user node returned by client.users(). The email is optional: the JS
guard if (not u?.email) continue skips users whose email is absent; an
empty string is also falsy in JS, so we keep email as Option String and
treat some "" as skipped too. -/
structure UserRecord where
  id : String
  name : String
  email : Option String
deriving DecidableEq, Repr

/-- An issue node returned by client.issues(). The number field is the
per-team sequence number used as the rotation key; it is an Int so that the
behaviour of the JS % operator on negative input can be analysed. -/
structure Issue where
  id : String
  identifier : String
  number : Int
deriving DecidableEq, Repr

/-! ### JavaScript primitives -/

/-- The JavaScript % operator on integers: truncating remainder (the result
takes the sign of the dividend), which Lean calls Int.tmod. -/
def jsMod (n m : Int) : Int :=
  Int.tmod n m

/-- JavaScript String.prototype.toLowerCase, modelled character-wise
(the emails involved are ASCII). -/
def lowerStr (s : String) : String :=
  String.mk (s.data.map Char.toLower)

/-- JavaScript String.prototype.split on a comma, modelled on the character
list: accumulates the current segment and cuts at every comma. split on the
empty string yields one empty segment, matching JS. -/
def splitCommasAux : List Char → List Char → List (List Char)
  | [], cur => [cur.reverse]
  | c :: rest, cur =>
    if c = ',' then cur.reverse :: splitCommasAux rest [] else splitCommasAux rest (c :: cur)

/-- JavaScript String.prototype.trim: drop whitespace from both ends. -/
def trimChars (cs : List Char) : List Char :=
  ((cs.dropWhile Char.isWhitespace).reverse.dropWhile Char.isWhitespace).reverse

/-- roundRobin.js line 80: ASSIGNEE_EMAILS.split(",").map(s => s.trim()).filter(Boolean).
filter(Boolean) discards exactly the empty strings. -/
def parseEmails (s : String) : List String :=
  (((splitCommasAux s.data []).map (fun cs => String.mk (trimChars cs))).filter
    (fun e => e ≠ ""))

/-! ### Directory resolver (getUserMapByEmail, lines 18-30) -/

/-- The map entry contributed by one user node: skipped when the email is
absent or empty (the JS falsy check), otherwise keyed on the lowercased
email with the actor record as value. -/
def entryOf (u : UserRecord) : Option (String × Actor) :=
  match u.email with
  | none => none
  | some e => if e = "" then none else some (lowerStr e, { id := u.id, name := u.name })

/-- The loop of lines 21-24: byEmail.set(u.email.toLowerCase(), ...) for each
user in order. A JS Map.set overwrites the value stored under an existing
key, so the map is modelled as the insertion list; lookups take the last
binding for a key. -/
def buildByEmail (users : List UserRecord) : List (String × Actor) :=
  users.foldl
    (fun m u => match entryOf u with
      | none => m
      | some p => m ++ [p]) []

/-- JS Map.get: the value most recently set under the key (later set calls
overwrite earlier ones), none when the key is absent. -/
def mapGet (m : List (String × Actor)) (k : String) : Option Actor :=
  (m.reverse.find? (fun p => p.1 = k)).map (fun p => p.2)

/-- getUserMapByEmail (lines 18-30): builds the byEmail map, computes
missing = emails.filter(e => not byEmail.has(e.toLowerCase())), and throws
carrying the missing list when it is non-empty; otherwise returns the map. -/
def getUserMapByEmail (users : List UserRecord) (emails : List String) :
    Except (List String) (List (String × Actor)) :=
  let byEmail := buildByEmail users
  let missing := emails.filter (fun e => (mapGet byEmail (lowerStr e)).isNone)
  if missing.isEmpty then Except.ok byEmail else Except.error missing

/-- Modelled from the spec: a directory entry matches a configured contact
key when the entry has a (non-empty) contact key equal to the configured key
case-insensitively. Used to state the resolver claims against the map-based
implementation. -/
def specMatches (u : UserRecord) (key : String) : Prop :=
  ∃ e, u.email = some e ∧ e ≠ "" ∧ lowerStr e = lowerStr key

instance (u : UserRecord) (key : String) : Decidable (specMatches u key) := by
  unfold specMatches
  exact match u.email with
  | none => Decidable.isFalse (by simp)
  | some e => decidable_of_iff (e ≠ "" ∧ lowerStr e = lowerStr key) (by simp)

/-! ### Rotation selector (lines 106-107) -/

/-- Lines 106-107: idx = issue.number % assignees.length; target =
assignees[idx]. A negative JS index reads undefined from the array, which the
embedding renders as none. -/
def select {α : Type} (rotation : List α) (seq : Int) : Option α :=
  let idx := jsMod seq rotation.length
  if 0 ≤ idx then rotation[idx.toNat]? else none

/-! ### The external API as an oracle -/

/-- Success/failure of each awaited Linear API mutation, as a function of the
issue id and actor id involved. A true value means the call resolves, a
false value means it throws. -/
structure Oracle where
  assignOk : String → String → Bool
  structuredOk : String → String → Bool
  fallbackOk : String → String → Bool
  subscribeOk : String → String → Bool

/-- One observable external call made during a run, with its arguments and
whether it succeeded. -/
inductive Event where
  | listUsers : Event
  | listIssues : Event
  | assign (issueId actorId : String) (ok : Bool) : Event
  | structured (issueId actorId : String) (ok : Bool) : Event
  | fallback (issueId : String) (body : String) (ok : Bool) : Event
  | subscribe (issueId actorId : String) (ok : Bool) : Event
deriving DecidableEq, Repr

/-- Whether an event is one of the two comment-creation calls. -/
def isCommentEvent : Event → Bool
  | Event.structured _ _ _ => true
  | Event.fallback _ _ _ => true
  | _ => false

/-- Number of fallback comment attempts in a trace. -/
def countFallbacks (tr : List Event) : Nat :=
  tr.countP (fun e => match e with
    | Event.fallback _ _ _ => true
    | _ => false)

/-! ### Notification composer (postCommentWithMention, lines 32-77) -/

/-- Line 65: const slug = WORKSPACE_SLUG or "<your-slug>" when the variable
is unset (or empty, both falsy in JS). -/
def fallbackSlug (workspaceSlug : Option String) : String :=
  match workspaceSlug with
  | none => "<your-slug>"
  | some s => if s = "" then "<your-slug>" else s

/-- Line 66: the profile URL embedded in the Markdown fallback comment. -/
def fallbackProfileUrl (workspaceSlug : Option String) (target : Actor) : String :=
  "https://linear.app/" ++ fallbackSlug workspaceSlug ++ "/people/" ++ target.id

/-- Lines 67-69: the Markdown body of the fallback comment. -/
def fallbackBody (workspaceSlug : Option String) (target : Actor) : String :=
  "[" ++ target.name ++ "](" ++ fallbackProfileUrl workspaceSlug target ++
    ") please triage this issue in the next 48 hours.\n\n" ++
    "_(This is assigned automatically in a round-robin based on inbound tickets.)_"

/-- postCommentWithMention (lines 32-77): first tries the rich-text comment
(bodyData with a mention node for target.id); on success it returns. On
failure it tries the Markdown fallback and returns on success; if that also
fails it rethrows. The result is the trace of comment attempts and true when
the function returned normally, false when it threw. -/
def postCommentWithMention (o : Oracle) (workspaceSlug : Option String)
    (issueId : String) (target : Actor) : List Event × Bool :=
  if o.structuredOk issueId target.id then
    ([Event.structured issueId target.id true], true)
  else if o.fallbackOk issueId target.id then
    ([Event.structured issueId target.id false,
      Event.fallback issueId (fallbackBody workspaceSlug target) true], true)
  else
    ([Event.structured issueId target.id false,
      Event.fallback issueId (fallbackBody workspaceSlug target) false], false)

/-! ### Assignment driver (main loop, lines 104-126) -/

/-- Which control-flow path the per-issue try/catch took. selectFailed:
the selection produced undefined and the log line threw before any call;
assignFailed: updateIssue threw; notifyFailed: both comment attempts threw;
assigned: assignment and one comment succeeded (subscribe failure is
swallowed by the inner catch and does not change the path). -/
inductive Status where
  | assigned : Status
  | assignFailed : Status
  | notifyFailed : Status
  | selectFailed : Status
deriving DecidableEq, Repr

/-- Selection inside main: assignees holds userMap.get results, so a hit can
in principle be undefined as well; both an out-of-range index and an
undefined entry make the subsequent field access throw. -/
def selectOpt (rotation : List (Option Actor)) (seq : Int) : Option Actor :=
  match select rotation seq with
  | some (some a) => some a
  | _ => none

/-- The body of the for loop (lines 104-126) for one issue: select the
target, await the assignment mutation, await postCommentWithMention, then
await the subscribe update inside its own try/catch whose failure is
ignored. Any throw before the inner try lands in the outer catch, which logs
and moves on. Returns the trace of calls made for this issue and the path
taken. -/
def processIssue (o : Oracle) (workspaceSlug : Option String)
    (assignees : List (Option Actor)) (issue : Issue) : List Event × Status :=
  match selectOpt assignees issue.number with
  | none => ([], Status.selectFailed)
  | some target =>
    if o.assignOk issue.id target.id then
      let pc := postCommentWithMention o workspaceSlug issue.id target
      if pc.2 then
        (Event.assign issue.id target.id true :: pc.1 ++
          [Event.subscribe issue.id target.id (o.subscribeOk issue.id target.id)],
         Status.assigned)
      else
        (Event.assign issue.id target.id true :: pc.1, Status.notifyFailed)
    else
      ([Event.assign issue.id target.id false], Status.assignFailed)

/-- The for loop over the issue batch: each issue is processed in order,
each inside its own try/catch, so the batch is exactly a map. -/
def runBatch (o : Oracle) (workspaceSlug : Option String)
    (assignees : List (Option Actor)) (issues : List Issue) :
    List (List Event × Status) :=
  issues.map (processIssue o workspaceSlug assignees)

/-- How a run of main ends: configExit models process.exit(1) on an empty
parsed rotation (line 83); resolveError models the getUserMapByEmail throw
reaching main().catch; completed carries the per-issue results. -/
inductive RunResult where
  | configExit (code : Nat) : RunResult
  | resolveError (missing : List String) : RunResult
  | completed (outcomes : List (List Event × Status)) : RunResult
deriving DecidableEq, Repr

/-- The external world a run interacts with: the directory snapshot, the
issue query result, and the mutation oracle. -/
structure World where
  users : List UserRecord
  issues : List Issue
  oracle : Oracle

/-- main (lines 79-131): parse ASSIGNEE_EMAILS; exit 1 when empty, before
any API call; fetch users and resolve the rotation (throwing aborts the
run); fetch issues; run the batch. The second component is the full trace of
external calls. -/
def mainRun (assigneeEmailsVar : String) (workspaceSlug : Option String)
    (w : World) : RunResult × List Event :=
  let emails := parseEmails assigneeEmailsVar
  if emails.isEmpty then (RunResult.configExit 1, [])
  else
    match getUserMapByEmail w.users emails with
    | Except.error missing => (RunResult.resolveError missing, [Event.listUsers])
    | Except.ok byEmail =>
      let assignees := emails.map (fun e => mapGet byEmail (lowerStr e))
      let results := runBatch w.oracle workspaceSlug assignees w.issues
      (RunResult.completed results,
       Event.listUsers :: Event.listIssues :: (results.map (fun r => r.1)).flatten)

/-! ### Concrete data for witness instantiations -/

/-- A sample actor. -/
def actorAlice : Actor := { id := "u-alice", name := "Alice" }

/-- A sample actor. -/
def actorBob : Actor := { id := "u-bob", name := "Bob" }

/-- A sample actor. -/
def actorCarol : Actor := { id := "u-carol", name := "Carol" }

/-- A sample directory entry for actorAlice. -/
def userAlice : UserRecord := { id := "u-alice", name := "Alice", email := some "alice@x.com" }

/-- A sample directory entry for actorBob. -/
def userBob : UserRecord := { id := "u-bob", name := "Bob", email := some "b@x.com" }

/-- A directory entry whose email is A@x.com (same key as userDupTwo after
lowercasing). -/
def userDupOne : UserRecord := { id := "u-a1", name := "A One", email := some "A@x.com" }

/-- A directory entry whose email is a@X.com (same key as userDupOne after
lowercasing). -/
def userDupTwo : UserRecord := { id := "u-a2", name := "A Two", email := some "a@X.com" }

/-- A sample issue with sequence number 0. -/
def issueOne : Issue := { id := "iss-1", identifier := "T-1", number := 0 }

/-- A sample issue with sequence number 1. -/
def issueTwo : Issue := { id := "iss-2", identifier := "T-2", number := 1 }

/-- A sample issue with sequence number 2. -/
def issueThree : Issue := { id := "iss-3", identifier := "T-3", number := 2 }

/-- A three-person rotation, fully resolved. -/
def demoRotation : List (Option Actor) := [some actorAlice, some actorBob, some actorCarol]

/-- An oracle for which only the assignment of issue iss-2 fails. -/
def failSecondOracle : Oracle :=
  { assignOk := fun i _ => i != "iss-2",
    structuredOk := fun _ _ => true,
    fallbackOk := fun _ _ => true,
    subscribeOk := fun _ _ => true }

/-- An oracle for which the structured comment always fails and the fallback
always succeeds. -/
def fallbackOracle : Oracle :=
  { assignOk := fun _ _ => true,
    structuredOk := fun _ _ => false,
    fallbackOk := fun _ _ => true,
    subscribeOk := fun _ _ => true }

/-- An oracle for which every assignment mutation fails. -/
def assignFailOracle : Oracle :=
  { assignOk := fun _ _ => false,
    structuredOk := fun _ _ => true,
    fallbackOk := fun _ _ => true,
    subscribeOk := fun _ _ => true }

/-- A sample world for whole-run witnesses. -/
def demoWorld : World :=
  { users := [userAlice, userBob], issues := [issueOne], oracle := failSecondOracle }

/-- A configured key has no case-insensitive match in the directory. -/
def noDirectoryMatch (users : List UserRecord) (e : String) : Bool :=
  users.all (fun u => ! decide (specMatches u e))

/-! ### Helper lemmas about the resolver map -/

/-- The byEmail insertion loop produces exactly the valid entries in
directory order. -/
theorem buildByEmail_eq_filterMap (users : List UserRecord) :
    buildByEmail users = users.filterMap entryOf := by
  have haux : ∀ (us : List UserRecord) (acc : List (String × Actor)),
      us.foldl
        (fun m u => match entryOf u with
          | none => m
          | some p => m ++ [p]) acc = acc ++ us.filterMap entryOf := by
    intro us
    induction us with
    | nil => intro acc; simp
    | cons u rest ih =>
      intro acc
      cases he : entryOf u with
      | none => simp [List.foldl_cons, he, ih, List.filterMap_cons]
      | some p => simp [List.foldl_cons, he, ih, List.filterMap_cons]
  simpa using haux users []

/-- A key is present in the byEmail map exactly when some directory entry
produced that key. -/
theorem mapGet_isSome_iff (users : List UserRecord) (k : String) :
    (mapGet (buildByEmail users) k).isSome = true ↔
      ∃ u ∈ users, ∃ a, entryOf u = some (k, a) := by
  unfold mapGet
  rw [buildByEmail_eq_filterMap]
  have hmap : ∀ (o : Option (String × Actor)),
      (Option.map (fun p => p.2) o).isSome = o.isSome := by
    intro o; cases o <;> rfl
  rw [hmap]
  rw [List.find?_isSome]
  constructor
  · rintro ⟨p, hp, hpk⟩
    rw [List.mem_reverse, List.mem_filterMap] at hp
    obtain ⟨u, hu, he⟩ := hp
    refine ⟨u, hu, p.2, ?_⟩
    have hk : p.1 = k := by simpa using hpk
    rw [he]
    cases p
    simp_all
  · rintro ⟨u, hu, a, he⟩
    refine ⟨(k, a), ?_, by simp⟩
    rw [List.mem_reverse, List.mem_filterMap]
    exact ⟨u, hu, he⟩

/-- A directory entry produces the lowercased key of a configured email
exactly when it matches that email case-insensitively. -/
theorem entryOf_eq_specMatches (u : UserRecord) (k : String) :
    (∃ a, entryOf u = some (lowerStr k, a)) ↔ specMatches u k := by
  unfold entryOf specMatches
  cases he : u.email with
  | none => simp
  | some e =>
    dsimp only
    by_cases hne : e = ""
    · simp [hne]
    · rw [if_neg hne]
      constructor
      · rintro ⟨a, ha⟩
        have h1 : lowerStr e = lowerStr k := congrArg Prod.fst (Option.some.inj ha)
        exact ⟨e, rfl, hne, h1⟩
      · rintro ⟨e2, he2, hne2, hkey⟩
        have he3 : e2 = e := (Option.some.inj he2).symm
        subst he3
        exact ⟨{ id := u.id, name := u.name }, by rw [hkey]⟩

/-- The map-based membership test of the resolver agrees with the
spec-level case-insensitive matching. -/
theorem mapGet_lower_isSome_iff (users : List UserRecord) (e : String) :
    (mapGet (buildByEmail users) (lowerStr e)).isSome = true ↔
      ∃ u ∈ users, specMatches u e := by
  rw [mapGet_isSome_iff]
  constructor
  · rintro ⟨u, hu, a, he⟩
    exact ⟨u, hu, (entryOf_eq_specMatches u e).mp ⟨a, he⟩⟩
  · rintro ⟨u, hu, hm⟩
    obtain ⟨a, ha⟩ := (entryOf_eq_specMatches u e).mpr hm
    exact ⟨u, hu, a, ha⟩

/-- The isNone test applied by the resolver is the Boolean no-match test. -/
theorem mapGet_isNone_eq_noMatch (users : List UserRecord) (e : String) :
    (mapGet (buildByEmail users) (lowerStr e)).isNone = noDirectoryMatch users e := by
  rw [Bool.eq_iff_iff]
  have h1 := mapGet_lower_isSome_iff users e
  constructor
  · intro hnone
    have hs : (mapGet (buildByEmail users) (lowerStr e)).isSome = false := by
      cases hm : mapGet (buildByEmail users) (lowerStr e) <;> simp_all
    have hnm : ¬ ∃ u ∈ users, specMatches u e := by
      intro hex
      rw [← h1] at hex
      simp_all
    simp only [noDirectoryMatch, List.all_eq_true]
    intro u hu
    simp only [Bool.not_eq_true']
    by_contra hd
    exact hnm ⟨u, hu, by simpa using hd⟩
  · intro hall
    simp only [noDirectoryMatch, List.all_eq_true] at hall
    cases hm : mapGet (buildByEmail users) (lowerStr e) with
    | none => rfl
    | some a =>
      exfalso
      have : ∃ u ∈ users, specMatches u e := h1.mp (by rw [hm]; rfl)
      obtain ⟨u, hu, hmu⟩ := this
      have := hall u hu
      simp_all

/-! ### Claim theorems -/

/-- C1: for every non-empty rotation of length N and non-negative sequence
number s, the selection picks the actor at position s mod N (zero-based,
configuration order), and repeating the selection with identical rotation
and sequence number yields the identical actor. -/
theorem select_mod_of_nonempty (rotation : List Actor) (s : Nat) (h : rotation ≠ []) :
    select rotation (s : Int) =
      some (rotation.get ⟨s % rotation.length, Nat.mod_lt s (List.length_pos.mpr h)⟩) ∧
    ∀ (rotation2 : List Actor) (s2 : Nat), rotation2 = rotation → s2 = s →
      select rotation2 (s2 : Int) = select rotation (s : Int) := by
  constructor
  · have hlt : s % rotation.length < rotation.length :=
      Nat.mod_lt s (List.length_pos.mpr h)
    have htm : jsMod (s : Int) (rotation.length : Int) = ((s % rotation.length : Nat) : Int) := rfl
    have h0 : (0 : Int) ≤ ((s % rotation.length : Nat) : Int) := Int.natCast_nonneg _
    show (if 0 ≤ jsMod (s : Int) (rotation.length : Int) then
            rotation[(jsMod (s : Int) (rotation.length : Int)).toNat]? else none) = _
    rw [htm, if_pos h0, Int.toNat_natCast]
    simp [List.getElem?_eq_getElem hlt]
  · intro rotation2 s2 hr hs
    rw [hr, hs]

/-- C1 witness: rotation of three actors, sequence number 10; index 10 mod 3
selects Bob, and a repeated call agrees. -/
theorem select_mod_of_nonempty_witness :
    [actorAlice, actorBob, actorCarol] ≠ [] ∧
    select [actorAlice, actorBob, actorCarol] ((10 : Nat) : Int) = some actorBob ∧
    select [actorAlice, actorBob, actorCarol] ((10 : Nat) : Int) =
      select [actorAlice, actorBob, actorCarol] ((10 : Nat) : Int) := by
  have h := select_mod_of_nonempty [actorAlice, actorBob, actorCarol] 10 (by decide)
  refine ⟨by decide, ?_, h.2 _ 10 rfl rfl⟩
  rw [h.1]
  rfl

/-- C2 (code evidence): the JS % operator truncates toward zero, so a
negative sequence number yields a negative index and the rotation lookup
falls outside the array: no normalization via ((n mod m) + m) mod m is
performed. -/
theorem select_negative_out_of_range :
    jsMod (-1) 3 = -1 ∧ jsMod (-1) 3 < 0 ∧
    select [actorAlice, actorBob, actorCarol] (-1) = none := by
  refine ⟨rfl, by decide, ?_⟩
  rfl

/-- C3: the resolver matches configured keys case-insensitively against the
directory, fails exactly when at least one key has no match, and on failure
the error carries exactly the full list of unmatched keys. -/
theorem resolver_error_iff_unmatched (users : List UserRecord) (emails : List String) :
    ((getUserMapByEmail users emails).isOk = true ↔
      ∀ e ∈ emails, ∃ u ∈ users, specMatches u e) ∧
    ∀ ms, getUserMapByEmail users emails = Except.error ms →
      ms = emails.filter (noDirectoryMatch users) ∧ ms ≠ [] := by
  have hpt : ∀ e ∈ emails,
      (mapGet (buildByEmail users) (lowerStr e)).isNone = noDirectoryMatch users e :=
    fun e _ => mapGet_isNone_eq_noMatch users e
  have hfilter :
      emails.filter (fun e => (mapGet (buildByEmail users) (lowerStr e)).isNone) =
        emails.filter (noDirectoryMatch users) := List.filter_congr hpt
  simp only [getUserMapByEmail]
  split
  next hemp =>
    have hnil : emails.filter
        (fun e => (mapGet (buildByEmail users) (lowerStr e)).isNone) = [] := by
      simpa [List.isEmpty_iff] using hemp
    constructor
    · simp only [Except.isOk]
      constructor
      · intro _ e he
        have hP : ((mapGet (buildByEmail users) (lowerStr e)).isNone) = false := by
          by_contra hc
          have hmem : e ∈ emails.filter
              (fun e => (mapGet (buildByEmail users) (lowerStr e)).isNone) := by
            rw [List.mem_filter]
            exact ⟨he, by simpa using hc⟩
          rw [hnil] at hmem
          simp at hmem
        have hs : (mapGet (buildByEmail users) (lowerStr e)).isSome = true := by
          cases hm : mapGet (buildByEmail users) (lowerStr e) <;> simp_all
        exact (mapGet_lower_isSome_iff users e).mp hs
      · intro _; rfl
    · intro ms hms
      exact absurd hms (by simp)
  next hemp =>
    have hne : emails.filter
        (fun e => (mapGet (buildByEmail users) (lowerStr e)).isNone) ≠ [] := by
      intro hc
      exact hemp (by simp [hc])
    constructor
    · simp only [Except.isOk]
      constructor
      · intro hc; simp [Except.toBool] at hc
      · intro hall
        exfalso
        apply hne
        rw [List.filter_eq_nil_iff]
        intro e he
        have hs : (mapGet (buildByEmail users) (lowerStr e)).isSome = true :=
          (mapGet_lower_isSome_iff users e).mpr (hall e he)
        cases hm : mapGet (buildByEmail users) (lowerStr e) <;> simp_all
    · intro ms hms
      have h1 : emails.filter
          (fun e => (mapGet (buildByEmail users) (lowerStr e)).isNone) = ms := by
        exact Except.error.inj hms
      constructor
      · rw [← h1, hfilter]
      · rw [← h1]; exact hne

/-- C3 witness: directory with alice@x.com and b@x.com; configured keys
alice@x.com, B@X.com (case-insensitive hit) and nobody@x.com (no hit);
resolution fails carrying exactly the unmatched key nobody@x.com. -/
theorem resolver_error_iff_unmatched_witness :
    getUserMapByEmail [userAlice, userBob] ["alice@x.com", "B@X.com", "nobody@x.com"] =
      Except.error ["nobody@x.com"] ∧
    ["nobody@x.com"] =
      ["alice@x.com", "B@X.com", "nobody@x.com"].filter
        (noDirectoryMatch [userAlice, userBob]) ∧
    ["nobody@x.com"] ≠ [] := by
  have h := (resolver_error_iff_unmatched [userAlice, userBob]
      ["alice@x.com", "B@X.com", "nobody@x.com"]).2 ["nobody@x.com"] (by rfl)
  exact ⟨by rfl, h.1, h.2⟩

/-- C4: a successfully resolved configuration yields a rotation of the same
length as the contact-key list, whose i-th entry is the actor resolved from
the i-th configured key (order preserved), every entry being resolved, and
keys equal up to case yielding identical entries. -/
theorem rotation_preserves_config (users : List UserRecord) (emails : List String)
    (m : List (String × Actor)) (h : getUserMapByEmail users emails = Except.ok m) :
    ((emails.map (fun e => mapGet m (lowerStr e))).length = emails.length) ∧
    (∀ i : Nat, (emails.map (fun e => mapGet m (lowerStr e)))[i]? =
      (emails[i]?).map (fun e => mapGet m (lowerStr e))) ∧
    (∀ e ∈ emails, (mapGet m (lowerStr e)).isSome = true) ∧
    (∀ i j : Nat, ∀ e1 e2 : String, emails[i]? = some e1 → emails[j]? = some e2 →
      lowerStr e1 = lowerStr e2 →
      (emails.map (fun e => mapGet m (lowerStr e)))[i]? =
        (emails.map (fun e => mapGet m (lowerStr e)))[j]?) := by
  simp only [getUserMapByEmail] at h
  split at h
  next hemp =>
    have hm : buildByEmail users = m := Except.ok.inj h
    have hnil : emails.filter
        (fun e => (mapGet (buildByEmail users) (lowerStr e)).isNone) = [] := by
      simpa [List.isEmpty_iff] using hemp
    refine ⟨by simp, fun i => by simp [List.getElem?_map], ?_, ?_⟩
    · intro e he
      have hP : ((mapGet (buildByEmail users) (lowerStr e)).isNone) = false := by
        by_contra hc
        have hmem : e ∈ emails.filter
            (fun e => (mapGet (buildByEmail users) (lowerStr e)).isNone) := by
          rw [List.mem_filter]
          exact ⟨he, by simpa using hc⟩
        rw [hnil] at hmem
        simp at hmem
      rw [← hm]
      cases hx : mapGet (buildByEmail users) (lowerStr e) <;> simp_all
    · intro i j e1 e2 h1 h2 hkey
      rw [List.getElem?_map, List.getElem?_map, h1, h2]
      simp [hkey]
  next =>
    exact absurd h (by simp)

/-- C4 witness: configuring alice@x.com twice with different casing gives a
two-entry rotation whose entries are both resolved and identical. -/
theorem rotation_preserves_config_witness :
    getUserMapByEmail [userAlice] ["alice@x.com", "ALICE@X.com"] =
      Except.ok [("alice@x.com", actorAlice)] ∧
    (mapGet [("alice@x.com", actorAlice)] (lowerStr "ALICE@X.com")).isSome = true ∧
    (["alice@x.com", "ALICE@X.com"].map
        (fun e => mapGet [("alice@x.com", actorAlice)] (lowerStr e)))[0]? =
      (["alice@x.com", "ALICE@X.com"].map
        (fun e => mapGet [("alice@x.com", actorAlice)] (lowerStr e)))[1]? := by
  have h := rotation_preserves_config [userAlice] ["alice@x.com", "ALICE@X.com"]
      [("alice@x.com", actorAlice)] (by rfl)
  refine ⟨by rfl, h.2.2.1 "ALICE@X.com" (by simp), ?_⟩
  exact h.2.2.2 0 1 "alice@x.com" "ALICE@X.com" rfl rfl (by rfl)

/-- C10: when several directory records share a contact key after
lowercasing, the lookup maps the key to the record appearing last in the
directory listing, and resolution of a configured key matching them still
succeeds. -/
theorem later_entry_wins (pre post : List UserRecord) (u : UserRecord)
    (k : String) (a : Actor)
    (hu : entryOf u = some (k, a))
    (hpost : ∀ v ∈ post, ∀ p, entryOf v = some p → p.1 ≠ k) :
    mapGet (buildByEmail (pre ++ u :: post)) k = some a ∧
    ∀ e : String, lowerStr e = k →
      (getUserMapByEmail (pre ++ u :: post) [e]).isOk = true := by
  have hmain : mapGet (buildByEmail (pre ++ u :: post)) k = some a := by
    unfold mapGet
    rw [buildByEmail_eq_filterMap, List.filterMap_append,
      List.filterMap_cons_some hu]
    rw [List.reverse_append, List.reverse_cons, List.append_assoc]
    rw [List.find?_append]
    have hnone : (List.filterMap entryOf post).reverse.find?
        (fun p => decide (p.1 = k)) = none := by
      rw [List.find?_eq_none]
      intro p hp
      rw [List.mem_reverse, List.mem_filterMap] at hp
      obtain ⟨v, hv, he⟩ := hp
      simpa using hpost v hv p he
    rw [hnone]
    simp
  refine ⟨hmain, ?_⟩
  intro e he
  simp only [getUserMapByEmail]
  have hfalse : (mapGet (buildByEmail (pre ++ u :: post)) (lowerStr e)).isNone = false := by
    rw [he, hmain]; rfl
  simp [List.filter, hfalse, Except.isOk, Except.toBool]

/-- C10 witness: two records keyed a@x.com up to case; the lookup returns
the second record and a configured key A@X.COM still resolves. -/
theorem later_entry_wins_witness :
    mapGet (buildByEmail [userDupOne, userDupTwo]) "a@x.com" =
      some { id := "u-a2", name := "A Two" } ∧
    (getUserMapByEmail [userDupOne, userDupTwo] ["A@X.COM"]).isOk = true := by
  have h := later_entry_wins [userDupOne] [] userDupTwo "a@x.com"
      { id := "u-a2", name := "A Two" } (by rfl) (by simp)
  exact ⟨h.1, h.2 "A@X.COM" (by rfl)⟩

/-- C5: each candidate of a batch is processed independently (the batch is a
map of the per-candidate step, so an error on one candidate never prevents
the processing of any other); in particular with three candidates where only
the second assignment fails, the outcomes are assigned, assignFailed,
assigned. -/
theorem batch_failure_isolation (o : Oracle) (ws : Option String)
    (assignees : List (Option Actor)) (issues : List Issue) :
    ((runBatch o ws assignees issues).length = issues.length) ∧
    (∀ i : Nat, (runBatch o ws assignees issues)[i]? =
      (issues[i]?).map (processIssue o ws assignees)) ∧
    (∀ c1 c2 c3 : Issue, ∀ t1 t2 t3 : Actor,
      selectOpt assignees c1.number = some t1 →
      selectOpt assignees c2.number = some t2 →
      selectOpt assignees c3.number = some t3 →
      o.assignOk c1.id t1.id = true →
      o.assignOk c2.id t2.id = false →
      o.assignOk c3.id t3.id = true →
      o.structuredOk c1.id t1.id = true →
      o.structuredOk c3.id t3.id = true →
      (runBatch o ws assignees [c1, c2, c3]).map (fun r => r.2) =
        [Status.assigned, Status.assignFailed, Status.assigned]) := by
  refine ⟨by simp [runBatch], fun i => by simp [runBatch], ?_⟩
  intro c1 c2 c3 t1 t2 t3 h1 h2 h3 a1 a2 a3 s1 s3
  simp [runBatch, processIssue, postCommentWithMention, h1, h2, h3, a1, a2, a3, s1, s3]

/-- C5 witness: oracle failing only the assignment of iss-2; in the batch
iss-1, iss-2, iss-3 the first and third candidates are still assigned. -/
theorem batch_failure_isolation_witness :
    (runBatch failSecondOracle none demoRotation [issueOne, issueTwo, issueThree]).map
        (fun r => r.2) = [Status.assigned, Status.assignFailed, Status.assigned] :=
  (batch_failure_isolation failSecondOracle none demoRotation
      [issueOne, issueTwo, issueThree]).2.2 issueOne issueTwo issueThree
      actorAlice actorBob actorCarol rfl rfl rfl rfl rfl rfl rfl rfl

/-- C6: when the assignment mutation for a candidate fails, no
comment-creation call is attempted for it, and in any per-candidate trace a
comment attempt only ever follows a successful assignment call for the same
candidate. -/
theorem no_notify_without_assign (o : Oracle) (ws : Option String)
    (assignees : List (Option Actor)) (issue : Issue) (target : Actor)
    (hsel : selectOpt assignees issue.number = some target)
    (hfail : o.assignOk issue.id target.id = false) :
    processIssue o ws assignees issue =
      ([Event.assign issue.id target.id false], Status.assignFailed) ∧
    (∀ e ∈ (processIssue o ws assignees issue).1, isCommentEvent e = false) ∧
    (∀ j : Issue, (∃ e ∈ (processIssue o ws assignees j).1, isCommentEvent e = true) →
      ∃ a, (processIssue o ws assignees j).1.head? =
        some (Event.assign j.id a true)) := by
  have hmain : processIssue o ws assignees issue =
      ([Event.assign issue.id target.id false], Status.assignFailed) := by
    simp [processIssue, hsel, hfail]
  refine ⟨hmain, ?_, ?_⟩
  · rw [hmain]
    intro e he
    simp only [List.mem_singleton] at he
    subst he
    rfl
  · intro j hex
    obtain ⟨e, he, hce⟩ := hex
    cases hj : selectOpt assignees j.number with
    | none => simp [processIssue, hj] at he
    | some t =>
      by_cases ha : o.assignOk j.id t.id = true
      · refine ⟨t.id, ?_⟩
        by_cases hpc : (postCommentWithMention o ws j.id t).2 = true
        · simp [processIssue, hj, ha, hpc]
        · simp [processIssue, hj, ha, hpc]
      · have ha2 : o.assignOk j.id t.id = false := by simpa using ha
        rw [show processIssue o ws assignees j =
            ([Event.assign j.id t.id false], Status.assignFailed) from by
          simp [processIssue, hj, ha2]] at he
        simp only [List.mem_singleton] at he
        subst he
        simp [isCommentEvent] at hce

/-- C6 witness: with an oracle failing every assignment, processing iss-1
yields only the failed assign call and the assignFailed path; no comment
call appears. -/
theorem no_notify_without_assign_witness :
    processIssue assignFailOracle none demoRotation issueOne =
      ([Event.assign "iss-1" "u-alice" false], Status.assignFailed) :=
  (no_notify_without_assign assignFailOracle none demoRotation issueOne
      actorAlice rfl rfl).1

/-- C7: the driver attempts the structured comment first; the textual
fallback is attempted exactly once, and only when the structured attempt
failed; the two comment forms never both succeed; and when the fallback
succeeds after a successful assignment the candidate ends on the assigned
path. -/
theorem structured_then_fallback (o : Oracle) (ws : Option String) (i : String) (t : Actor) :
    (o.structuredOk i t.id = true →
      postCommentWithMention o ws i t = ([Event.structured i t.id true], true)) ∧
    (o.structuredOk i t.id = false →
      postCommentWithMention o ws i t =
        ([Event.structured i t.id false,
          Event.fallback i (fallbackBody ws t) (o.fallbackOk i t.id)],
         o.fallbackOk i t.id)) ∧
    (countFallbacks (postCommentWithMention o ws i t).1 =
      if o.structuredOk i t.id = true then 0 else 1) ∧
    (¬ (Event.structured i t.id true ∈ (postCommentWithMention o ws i t).1 ∧
        ∃ b, Event.fallback i b true ∈ (postCommentWithMention o ws i t).1)) ∧
    (∀ (assignees : List (Option Actor)) (issue : Issue),
      issue.id = i → selectOpt assignees issue.number = some t →
      o.assignOk i t.id = true → o.structuredOk i t.id = false →
      o.fallbackOk i t.id = true →
      (processIssue o ws assignees issue).2 = Status.assigned) := by
  by_cases hs : o.structuredOk i t.id = true
  · refine ⟨fun _ => by simp [postCommentWithMention, hs], ?_, ?_, ?_, ?_⟩
    · intro hc; exact absurd hs (by simp [hc])
    · simp [postCommentWithMention, hs, countFallbacks]
    · rintro ⟨_, b, hb⟩
      simp [postCommentWithMention, hs] at hb
    · intro assignees issue hid hsel ha hsf hff
      exact absurd hs (by simp [hsf])
  · have hs2 : o.structuredOk i t.id = false := by simpa using hs
    by_cases hf : o.fallbackOk i t.id = true
    · refine ⟨fun hc => absurd hc (by simp [hs2]), ?_, ?_, ?_, ?_⟩
      · intro _; simp [postCommentWithMention, hs2, hf]
      · simp [postCommentWithMention, hs2, hf, countFallbacks]
      · rintro ⟨hst, _⟩
        simp [postCommentWithMention, hs2, hf] at hst
      · intro assignees issue hid hsel ha hsf hff
        subst hid
        simp [processIssue, hsel, ha, postCommentWithMention, hs2, hf]
    · have hf2 : o.fallbackOk i t.id = false := by simpa using hf
      refine ⟨fun hc => absurd hc (by simp [hs2]), ?_, ?_, ?_, ?_⟩
      · intro _; simp [postCommentWithMention, hs2, hf2]
      · simp [postCommentWithMention, hs2, hf2, countFallbacks]
      · rintro ⟨hst, _⟩
        simp [postCommentWithMention, hs2, hf2] at hst
      · intro assignees issue hid hsel ha hsf hff
        exact absurd hff (by simp [hf2])

/-- C7 witness: oracle rejecting the structured form and accepting the
fallback; the trace is the failed structured attempt followed by exactly one
successful fallback attempt, and iss-1 ends on the assigned path. -/
theorem structured_then_fallback_witness :
    postCommentWithMention fallbackOracle none "iss-1" actorAlice =
      ([Event.structured "iss-1" "u-alice" false,
        Event.fallback "iss-1" (fallbackBody none actorAlice) true], true) ∧
    (processIssue fallbackOracle none demoRotation issueOne).2 = Status.assigned := by
  have h := structured_then_fallback fallbackOracle none "iss-1" actorAlice
  exact ⟨h.2.1 rfl, h.2.2.2.2 demoRotation issueOne rfl rfl rfl rfl rfl⟩

/-- C8: the rotation is parsed by splitting the configuration string on
commas, trimming each segment and discarding the empty ones; when nothing
remains the run exits with code 1 before any external call, and otherwise
the run never takes the config exit. -/
theorem empty_rotation_exits (cfg : String) (ws : Option String) (w : World) :
    (parseEmails cfg =
      ((splitCommasAux cfg.data []).map (fun cs => String.mk (trimChars cs))).filter
        (fun e => e ≠ "")) ∧
    (parseEmails cfg = [] → mainRun cfg ws w = (RunResult.configExit 1, [])) ∧
    (parseEmails cfg ≠ [] → (mainRun cfg ws w).1 ≠ RunResult.configExit 1) := by
  refine ⟨rfl, ?_, ?_⟩
  · intro hnil
    simp [mainRun, hnil]
  · intro hne
    have hemp : (parseEmails cfg).isEmpty = false := by
      simpa [List.isEmpty_iff] using hne
    cases hg : getUserMapByEmail w.users (parseEmails cfg) with
    | error m => simp [mainRun, hemp, hg]
    | ok mm => simp [mainRun, hemp, hg]

/-- C8 witness: a configuration of only commas and spaces parses to the
empty rotation and the run exits with code 1 having made no external call. -/
theorem empty_rotation_exits_witness :
    parseEmails " ,, , " = [] ∧
    mainRun " ,, , " none demoWorld = (RunResult.configExit 1, []) := by
  have h := (empty_rotation_exits " ,, , " none demoWorld).2.1 (by rfl)
  exact ⟨by rfl, h⟩

/-- C9: without a configured workspace identifier the fallback comment is
still attempted, with the literal placeholder your-slug segment in its
profile link, and the outcome of the comment step does not depend on the
slug being configured. -/
theorem missing_slug_placeholder (o : Oracle) (i : String) (t : Actor)
    (h : o.structuredOk i t.id = false) :
    fallbackSlug none = "<your-slug>" ∧
    fallbackProfileUrl none t = "https://linear.app/" ++ "<your-slug>" ++ "/people/" ++ t.id ∧
    postCommentWithMention o none i t =
      ([Event.structured i t.id false,
        Event.fallback i (fallbackBody none t) (o.fallbackOk i t.id)],
       o.fallbackOk i t.id) ∧
    (postCommentWithMention o none i t).2 = (postCommentWithMention o (some "acme") i t).2 := by
  refine ⟨rfl, rfl, ?_, ?_⟩
  · by_cases hf : o.fallbackOk i t.id = true
    · simp [postCommentWithMention, h, hf]
    · have hf2 : o.fallbackOk i t.id = false := by simpa using hf
      simp [postCommentWithMention, h, hf2]
  · by_cases hf : o.fallbackOk i t.id = true <;>
      simp [postCommentWithMention, h, hf]

/-- C9 witness: with no workspace slug configured the fallback profile link
for Alice embeds the literal placeholder, and the fallback comment is still
posted. -/
theorem missing_slug_placeholder_witness :
    fallbackProfileUrl none actorAlice = "https://linear.app/<your-slug>/people/u-alice" ∧
    postCommentWithMention fallbackOracle none "iss-1" actorAlice =
      ([Event.structured "iss-1" "u-alice" false,
        Event.fallback "iss-1" (fallbackBody none actorAlice) true], true) := by
  have h := missing_slug_placeholder fallbackOracle "iss-1" actorAlice rfl
  refine ⟨?_, ?_⟩
  · rw [h.2.1]
    rfl
  · exact h.2.2.1

end RoundRobin
